import Mathlib

/-!
# Verification of the rpi-controls gesture-recognition engine

Shallow embedding of `src/rpicontrols/controller.py`.

Modelling choices:
* Time is modelled by `Int` (think hundredths of a second). The Python code
  uses float seconds, but every operation it performs on times is addition,
  subtraction and order comparison, so any linearly ordered additive group is
  a faithful model; integers keep every definition decidable/executable.
* `Button.update(event_loop, pin_input)` receives the event loop only to
  decide whether events are raised (`_raise_event` returns immediately when
  `event_loop is None`); we model this by a Boolean `loop` flag.  State
  mutations happen regardless of the flag, exactly as in the source.
* An emitted event is recorded once (the Python code creates one future per
  registered handler; the claim-level notion is "the event was raised").
* Python's `press_times[-1]` / `press_times[-2]` raise `IndexError` on lists
  that are too short; they are modelled by `List.getLastD 0` / `List.getD _ 0`.
  All theorems that inspect these values carry the non-emptiness guards under
  which the source evaluates them.
-/

namespace RpiControls

/-- Time stamps and durations (see module docstring: integral model of float seconds). -/
abbrev Time := Int

/-- `Button.InputType` from `controller.py`. -/
inductive InputType
  | pressedWhenOn
  | pressedWhenOff
  deriving DecidableEq, Repr

/-- The five gestures a button can emit. -/
inductive Event
  | press
  | release
  | longPress
  | click
  | doubleClick
  deriving DecidableEq, Repr

/-- The mutable state of `Button` that the recognizer reads and writes
(`_pressed`, `_long_pressed`, `_press_times`, `_release_times`,
`scheduled_update_time`), together with the per-button configuration
(`_input_type`, `double_click_timeout`, `long_press_timeout`). -/
structure Button where
  inputType : InputType
  doubleClickTimeout : Time
  longPressTimeout : Time
  pressed : Bool
  longPressed : Bool
  pressTimes : List Time
  releaseTimes : List Time
  scheduledUpdateTime : Time
  deriving DecidableEq, Repr

/-- `Button.__init__`: fresh state with both timeouts at their default 0.5 s
(50 in our hundredth-of-a-second units). -/
def Button.init (it : InputType) : Button :=
  { inputType := it
    doubleClickTimeout := 50
    longPressTimeout := 50
    pressed := false
    longPressed := false
    pressTimes := []
    releaseTimes := []
    scheduledUpdateTime := 0 }

/-- `new_pressed = pin_input if input_type == PRESSED_WHEN_ON else not pin_input`. -/
def levelToPressed (it : InputType) (pinInput : Bool) : Bool :=
  if it = InputType.pressedWhenOn then pinInput else !pinInput

/-- `Button._schedule_update`: keep the earlier of the pending deadline and the
requested one; `0` clears, and a request always lands when nothing is pending. -/
def Button.scheduleUpdate (b : Button) (updateTime : Time) : Button :=
  if updateTime = 0 ∨ b.scheduledUpdateTime = 0 ∨ b.scheduledUpdateTime > updateTime then
    { b with scheduledUpdateTime := updateTime }
  else b

/-- `Button._raise_event`: nothing is submitted when no event loop was passed. -/
def raiseEvent (loop : Bool) (e : Event) : List Event :=
  if loop then [e] else []

/-- Start of `Button.update`: `if self.scheduled_update_time < current_time:
self._schedule_update(0.0)` ("mark button as updated"). -/
def Button.markUpdated (b : Button) (now : Time) : Button :=
  if b.scheduledUpdateTime < now then b.scheduleUpdate 0 else b

/-- Edge block of `Button.update`: record a press or release transition
(`self._pressed` already holds the new value, `wasPressed` the old one). -/
def Button.edgePhase (loop : Bool) (wasPressed : Bool) (b : Button) (now : Time) :
    Button × List Event :=
  if b.pressed = true ∧ wasPressed = false then
    ({ b with pressTimes := b.pressTimes ++ [now] }, raiseEvent loop Event.press)
  else if b.pressed = false ∧ wasPressed = true then
    ({ b with releaseTimes := b.releaseTimes ++ [now] }, raiseEvent loop Event.release)
  else (b, [])

/-- "Maybe raise 'long press' event?" block of `Button.update`. -/
def Button.longPressPhase (loop : Bool) (b : Button) (now : Time) : Button × List Event :=
  if b.pressed = true then
    let lastPressTime : Time := b.pressTimes.getLastD 0
    if b.longPressed = false then
      if now - lastPressTime > b.longPressTimeout then
        ({ b with longPressed := true }, raiseEvent loop Event.longPress)
      else
        (b.scheduleUpdate (lastPressTime + b.longPressTimeout), [])
    else (b, [])
  else (b, [])

/-- "Maybe raise 'double click' event?" block of `Button.update`. -/
def Button.doubleClickPhase (loop : Bool) (wasPressed : Bool) (b : Button) (now : Time) :
    Button × List Event :=
  let justReleased := b.pressed = false ∧ wasPressed = true
  let clickedTwice := 2 ≤ b.pressTimes.length
  let firstPressRecent := clickedTwice ∧
    now - b.pressTimes.getD (b.pressTimes.length - 2) 0 < b.doubleClickTimeout
  if justReleased ∧ clickedTwice ∧ firstPressRecent then
    ({ b with pressTimes := [], releaseTimes := [] }, raiseEvent loop Event.doubleClick)
  else (b, [])

/-- "Maybe raise 'click' event?" block of `Button.update`. -/
def Button.clickPhase (loop : Bool) (b : Button) (now : Time) : Button × List Event :=
  if b.pressTimes ≠ [] ∧ b.releaseTimes ≠ [] then
    let lastPress : Time := b.pressTimes.getLastD 0
    let lastRelease : Time := b.releaseTimes.getLastD 0
    if lastRelease > lastPress then
      if now - lastPress ≥ b.doubleClickTimeout then
        ({ b with pressTimes := [], releaseTimes := [] }, raiseEvent loop Event.click)
      else
        (b.scheduleUpdate (lastPress + b.doubleClickTimeout), [])
    else (b, [])
  else (b, [])

/-- First lines of `Button.update` up to and including the edge block:
compute `new_pressed`, clear `long_pressed` on release, mark the button as
updated, then detect the edge. -/
def Button.postEdge (loop : Bool) (b : Button) (pinInput : Bool) (now : Time) :
    Button × List Event :=
  let newPressed := levelToPressed b.inputType pinInput
  let b1 : Button :=
    { b with pressed := newPressed
             longPressed := if newPressed then b.longPressed else false }
  let b2 := b1.markUpdated now
  b2.edgePhase loop b.pressed now

/-- `Button.update` (without the final `click` block): edge handling, then
long-press arming, then double-click detection. -/
def Button.preClick (loop : Bool) (b : Button) (pinInput : Bool) (now : Time) :
    Button × List Event :=
  let e := b.postEdge loop pinInput now
  let l := e.1.longPressPhase loop now
  let d := l.1.doubleClickPhase loop b.pressed now
  (d.1, e.2 ++ l.2 ++ d.2)

/-- `Button.update`: the full per-call state transition of the recognizer,
returning the new state and the events raised during the call (in emission
order). -/
def Button.update (loop : Bool) (b : Button) (pinInput : Bool) (now : Time) :
    Button × List Event :=
  let d := b.preClick loop pinInput now
  let k := d.1.clickPhase loop now
  (k.1, d.2 ++ k.2)

/-- A sequence of `Button.update` calls; each entry is
`(event loop present?, pin level, current time)`. -/
def Button.run (b : Button) : List (Bool × Bool × Time) → Button × List Event
  | [] => (b, [])
  | u :: us =>
    let s := b.update u.1 u.2.1 u.2.2
    let r := s.1.run us
    (r.1, s.2 ++ r.2)

/-- Like `Button.run`, but each emitted event is paired with the time of the
update that emitted it. -/
def Button.runT (b : Button) : List (Bool × Bool × Time) → Button × List (Event × Time)
  | [] => (b, [])
  | u :: us =>
    let s := b.update u.1 u.2.1 u.2.2
    let r := s.1.runT us
    (r.1, s.2.map (fun e => (e, u.2.2)) ++ r.2)

/-- `Controller.Status`. -/
inductive Status
  | ready
  | running
  | stopping
  | stopped
  deriving DecidableEq, Repr

/-- `Controller._update_button`: a no-op unless the controller is running;
otherwise runs `Button.update` with the given driver level, passing the event
loop only when `raise_events` is true. -/
def Controller.updateButton (status : Status) (raiseEvents : Bool) (b : Button)
    (level : Bool) (now : Time) : Button × List Event :=
  if status = Status.running then b.update raiseEvents level now else (b, [])

/-- `Controller.make_button`, reduced to the state of the returned button:
construct the fresh button, then perform the initial `_update_button` with
`raise_events=False` (`level` is what `driver.input` would return). -/
def Controller.makeButton (status : Status) (it : InputType) (level : Bool)
    (now : Time) : Button :=
  (Controller.updateButton status false (Button.init it) level now).1

/-- `Controller.stop`, reduced to its effect on `_status`: returns the new
status together with `true` when the call raises (leaving the status
unchanged), mirroring the `STOPPED` early return, the non-`RUNNING` raise and
the transition to `STOPPING`. -/
def Controller.stop (s : Status) : Status × Bool :=
  if s = Status.stopped then (s, false)
  else if s ≠ Status.running then (s, true)
  else (Status.stopping, false)

/-- One wakeup of `Controller._scheduled_updates_thread_main`: the buttons
whose update is invoked at time `now` (`b.scheduled_update_time != 0 and
b.scheduled_update_time < current_time`). -/
def Controller.scheduledButtons (buttons : List Button) (now : Time) : List Button :=
  buttons.filter (fun b => b.scheduledUpdateTime ≠ 0 ∧ b.scheduledUpdateTime < now)

/-- The press/release subsequence of an emitted event list. -/
def prEvents (l : List Event) : List Event :=
  l.filter (fun e => decide (e = Event.press) || decide (e = Event.release))

/-- `alternates expectPress l` holds when `l` is a strictly alternating
press/release sequence whose first element is a press exactly when
`expectPress` is true. -/
def alternates : Bool → List Event → Bool
  | _, [] => true
  | true, e :: rest => decide (e = Event.press) && alternates false rest
  | false, e :: rest => decide (e = Event.release) && alternates true rest

/-- Button of §8 scenario 2 of the spec: `long_press_timeout = 0.5`,
`double_click_timeout = 0.4` (50 and 40 in hundredth-of-a-second units). -/
def c3Button : Button :=
  { Button.init InputType.pressedWhenOn with doubleClickTimeout := 40, longPressTimeout := 50 }

/-- A button with a pending scheduled update, used as a concrete witness input. -/
def c10Button : Button :=
  { Button.init InputType.pressedWhenOn with scheduledUpdateTime := 10 }

/-- C2: `make_button` performs the initial update with events disabled, but
`_update_button` returns immediately unless the controller status is
`RUNNING`; so on a `READY` controller (the normal creation-time status) the
baseline level is *not* sampled and `pressed` stays at its constructor value
`false` even though the pin level maps to pressed — contradicting the inline
comment "Do an initial update to initialize the internal state of the
button".  On a `RUNNING` controller the sample does happen and no event is
emitted. -/
theorem claim_C2 :
    (Controller.makeButton Status.ready InputType.pressedWhenOn true 5).pressed = false
    ∧ levelToPressed InputType.pressedWhenOn true = true
    ∧ (Controller.makeButton Status.running InputType.pressedWhenOn true 5).pressed = true
    ∧ (Controller.updateButton Status.running false (Button.init InputType.pressedWhenOn) true 5).2
        = [] := by
  decide

/-- C3 counterexample: with `long_press_timeout = 0.5` and
`double_click_timeout = 0.4` (units of 0.01 s), press at 0.00 and release at
0.70 (scheduled wake at 0.51) make the click fire at 0.70 — together with the
release, because `now - press_times[-1] = 0.70 ≥ 0.40` already holds — not at
`t ≥ 1.10` as the claim states; and a wake at exactly 0.50 emits no
`long_press` (the code requires `now - t_p > long_press_timeout` strictly). -/
theorem claim_C3_counterexample :
    (Event.click, (70 : Time)) ∈
        (c3Button.runT [(true, true, 0), (true, true, 51), (true, false, 70)]).2
    ∧ (70 : Time) < 110
    ∧ (∀ p ∈ (c3Button.runT [(true, true, 0), (true, true, 50), (true, false, 70)]).2,
        p.1 ≠ Event.longPress) := by
  decide

/-- C3 (amended): for the input sequence press at 0.00, release at 0.70, with
the scheduled wake landing at any time `w` strictly between 0.50 and 0.70
(the scheduler wakes strictly after the 0.50 deadline), the emitted gestures
are exactly: press at 0.00, long_press at `w`, release at 0.70, and click at
0.70 — the click fires with the release, since the double-click window
measured from the press at 0.00 has already elapsed. -/
theorem claim_C3 (w : Time) (hw1 : 50 < w) (_hw2 : w < 70) :
    (c3Button.runT [(true, true, 0), (true, true, w), (true, false, 70)]).2
      = [(Event.press, 0), (Event.longPress, w), (Event.release, 70), (Event.click, 70)] := by
  have s1 : c3Button.update true true 0
      = (⟨InputType.pressedWhenOn, 40, 50, true, false, [0], [], 50⟩, [Event.press]) := by
    decide
  have s2 : (⟨InputType.pressedWhenOn, 40, 50, true, false, [0], [], 50⟩ : Button).update true true w
      = (⟨InputType.pressedWhenOn, 40, 50, true, true, [0], [], 0⟩, [Event.longPress]) := by
    simp [Button.update, Button.preClick, Button.postEdge, Button.markUpdated,
      Button.edgePhase, Button.longPressPhase, Button.doubleClickPhase, Button.clickPhase,
      Button.scheduleUpdate, levelToPressed, raiseEvent, hw1]
  have s3 : (⟨InputType.pressedWhenOn, 40, 50, true, true, [0], [], 0⟩ : Button).update true false 70
      = (⟨InputType.pressedWhenOn, 40, 50, false, false, [], [], 0⟩,
          [Event.release, Event.click]) := by
    decide
  simp [Button.runT, s1, s2, s3]

/-- C3 witness: the amended scenario at the concrete wake time 0.51. -/
theorem claim_C3_witness :
    (c3Button.runT [(true, true, 0), (true, true, 51), (true, false, 70)]).2
      = [(Event.press, 0), (Event.longPress, 51), (Event.release, 70), (Event.click, 70)] :=
  claim_C3 51 (by decide) (by decide)

/-- C8 counterexample: a button whose `scheduled_update_time` equals the
wakeup time `now` satisfies `0 < scheduled_update_time ≤ now` but is *not*
updated — the thread filters with a strict `scheduled_update_time <
current_time`, excluding the boundary case the claim includes. -/
theorem claim_C8_counterexample :
    (0 : Time) < 5 ∧ (5 : Time) ≤ 5
    ∧ ({ Button.init InputType.pressedWhenOn with scheduledUpdateTime := 5 } : Button)
        ∉ Controller.scheduledButtons
            [{ Button.init InputType.pressedWhenOn with scheduledUpdateTime := 5 }] 5 := by
  decide

/-- C8 (amended): on each wakeup at time `now`, the set of buttons whose
update is invoked is exactly the set of registered buttons with
`scheduled_update_time ≠ 0` and `scheduled_update_time` *strictly* less than
`now` (the boundary case `scheduled_update_time = now` is excluded). -/
theorem claim_C8 (buttons : List Button) (now : Time) (b : Button) :
    b ∈ Controller.scheduledButtons buttons now
      ↔ b ∈ buttons ∧ b.scheduledUpdateTime ≠ 0 ∧ b.scheduledUpdateTime < now := by
  simp [Controller.scheduledButtons, List.mem_filter]

/-- C8 witness: a pending deadline strictly before the wakeup time is selected. -/
theorem claim_C8_witness :
    ({ Button.init InputType.pressedWhenOn with scheduledUpdateTime := 5 } : Button)
      ∈ Controller.scheduledButtons
          [{ Button.init InputType.pressedWhenOn with scheduledUpdateTime := 5 }] 6 :=
  (claim_C8 _ 6 _).mpr ⟨by decide, by decide, by decide⟩

/-- C9: `stop` on a `Stopped` controller returns normally and changes
nothing; on a `Running` controller it moves the status to `Stopping`; in any
other status it raises (second component `true`) and leaves the status
unchanged. -/
theorem claim_C9 :
    Controller.stop Status.stopped = (Status.stopped, false)
    ∧ Controller.stop Status.running = (Status.stopping, false)
    ∧ ∀ s : Status, s ≠ Status.running → s ≠ Status.stopped →
        Controller.stop s = (s, true) := by
  refine ⟨rfl, rfl, ?_⟩
  intro s h1 h2
  cases s
  · rfl
  · exact absurd rfl h1
  · rfl
  · exact absurd rfl h2

/-- C9 witness: stopping a `Ready` controller raises and keeps the status. -/
theorem claim_C9_witness : Controller.stop Status.ready = (Status.ready, true) :=
  claim_C9.2.2 Status.ready (by decide) (by decide)

/-! Field-preservation lemmas: each block of `Button.update` touches only the
fields the source assigns to. -/

@[simp] theorem scheduleUpdate_inputType (b : Button) (t : Time) :
    (b.scheduleUpdate t).inputType = b.inputType := by
  unfold Button.scheduleUpdate; split <;> rfl

@[simp] theorem scheduleUpdate_doubleClickTimeout (b : Button) (t : Time) :
    (b.scheduleUpdate t).doubleClickTimeout = b.doubleClickTimeout := by
  unfold Button.scheduleUpdate; split <;> rfl

@[simp] theorem scheduleUpdate_longPressTimeout (b : Button) (t : Time) :
    (b.scheduleUpdate t).longPressTimeout = b.longPressTimeout := by
  unfold Button.scheduleUpdate; split <;> rfl

@[simp] theorem scheduleUpdate_pressed (b : Button) (t : Time) :
    (b.scheduleUpdate t).pressed = b.pressed := by
  unfold Button.scheduleUpdate; split <;> rfl

@[simp] theorem scheduleUpdate_longPressed (b : Button) (t : Time) :
    (b.scheduleUpdate t).longPressed = b.longPressed := by
  unfold Button.scheduleUpdate; split <;> rfl

@[simp] theorem scheduleUpdate_pressTimes (b : Button) (t : Time) :
    (b.scheduleUpdate t).pressTimes = b.pressTimes := by
  unfold Button.scheduleUpdate; split <;> rfl

@[simp] theorem scheduleUpdate_releaseTimes (b : Button) (t : Time) :
    (b.scheduleUpdate t).releaseTimes = b.releaseTimes := by
  unfold Button.scheduleUpdate; split <;> rfl

@[simp] theorem markUpdated_inputType (b : Button) (now : Time) :
    (b.markUpdated now).inputType = b.inputType := by
  unfold Button.markUpdated; split <;> simp

@[simp] theorem markUpdated_doubleClickTimeout (b : Button) (now : Time) :
    (b.markUpdated now).doubleClickTimeout = b.doubleClickTimeout := by
  unfold Button.markUpdated; split <;> simp

@[simp] theorem markUpdated_longPressTimeout (b : Button) (now : Time) :
    (b.markUpdated now).longPressTimeout = b.longPressTimeout := by
  unfold Button.markUpdated; split <;> simp

@[simp] theorem markUpdated_pressed (b : Button) (now : Time) :
    (b.markUpdated now).pressed = b.pressed := by
  unfold Button.markUpdated; split <;> simp

@[simp] theorem markUpdated_longPressed (b : Button) (now : Time) :
    (b.markUpdated now).longPressed = b.longPressed := by
  unfold Button.markUpdated; split <;> simp

@[simp] theorem markUpdated_pressTimes (b : Button) (now : Time) :
    (b.markUpdated now).pressTimes = b.pressTimes := by
  unfold Button.markUpdated; split <;> simp

@[simp] theorem markUpdated_releaseTimes (b : Button) (now : Time) :
    (b.markUpdated now).releaseTimes = b.releaseTimes := by
  unfold Button.markUpdated; split <;> simp

@[simp] theorem edgePhase_inputType (loop wasPressed : Bool) (b : Button) (now : Time) :
    ((b.edgePhase loop wasPressed now).1).inputType = b.inputType := by
  unfold Button.edgePhase; split_ifs <;> rfl

@[simp] theorem edgePhase_doubleClickTimeout (loop wasPressed : Bool) (b : Button) (now : Time) :
    ((b.edgePhase loop wasPressed now).1).doubleClickTimeout = b.doubleClickTimeout := by
  unfold Button.edgePhase; split_ifs <;> rfl

@[simp] theorem edgePhase_longPressTimeout (loop wasPressed : Bool) (b : Button) (now : Time) :
    ((b.edgePhase loop wasPressed now).1).longPressTimeout = b.longPressTimeout := by
  unfold Button.edgePhase; split_ifs <;> rfl

@[simp] theorem edgePhase_pressed (loop wasPressed : Bool) (b : Button) (now : Time) :
    ((b.edgePhase loop wasPressed now).1).pressed = b.pressed := by
  unfold Button.edgePhase; split_ifs <;> rfl

@[simp] theorem edgePhase_longPressed (loop wasPressed : Bool) (b : Button) (now : Time) :
    ((b.edgePhase loop wasPressed now).1).longPressed = b.longPressed := by
  unfold Button.edgePhase; split_ifs <;> rfl

@[simp] theorem edgePhase_scheduledUpdateTime (loop wasPressed : Bool) (b : Button) (now : Time) :
    ((b.edgePhase loop wasPressed now).1).scheduledUpdateTime = b.scheduledUpdateTime := by
  unfold Button.edgePhase; split_ifs <;> rfl

@[simp] theorem longPressPhase_inputType (loop : Bool) (b : Button) (now : Time) :
    ((b.longPressPhase loop now).1).inputType = b.inputType := by
  simp only [Button.longPressPhase]; split_ifs <;> simp

@[simp] theorem longPressPhase_doubleClickTimeout (loop : Bool) (b : Button) (now : Time) :
    ((b.longPressPhase loop now).1).doubleClickTimeout = b.doubleClickTimeout := by
  simp only [Button.longPressPhase]; split_ifs <;> simp

@[simp] theorem longPressPhase_longPressTimeout (loop : Bool) (b : Button) (now : Time) :
    ((b.longPressPhase loop now).1).longPressTimeout = b.longPressTimeout := by
  simp only [Button.longPressPhase]; split_ifs <;> simp

@[simp] theorem longPressPhase_pressed (loop : Bool) (b : Button) (now : Time) :
    ((b.longPressPhase loop now).1).pressed = b.pressed := by
  simp only [Button.longPressPhase]; split_ifs <;> simp

@[simp] theorem longPressPhase_pressTimes (loop : Bool) (b : Button) (now : Time) :
    ((b.longPressPhase loop now).1).pressTimes = b.pressTimes := by
  simp only [Button.longPressPhase]; split_ifs <;> simp

@[simp] theorem longPressPhase_releaseTimes (loop : Bool) (b : Button) (now : Time) :
    ((b.longPressPhase loop now).1).releaseTimes = b.releaseTimes := by
  simp only [Button.longPressPhase]; split_ifs <;> simp

@[simp] theorem doubleClickPhase_inputType (loop wasPressed : Bool) (b : Button) (now : Time) :
    ((b.doubleClickPhase loop wasPressed now).1).inputType = b.inputType := by
  simp only [Button.doubleClickPhase]; split_ifs <;> rfl

@[simp] theorem doubleClickPhase_doubleClickTimeout (loop wasPressed : Bool) (b : Button)
    (now : Time) :
    ((b.doubleClickPhase loop wasPressed now).1).doubleClickTimeout = b.doubleClickTimeout := by
  simp only [Button.doubleClickPhase]; split_ifs <;> rfl

@[simp] theorem doubleClickPhase_longPressTimeout (loop wasPressed : Bool) (b : Button)
    (now : Time) :
    ((b.doubleClickPhase loop wasPressed now).1).longPressTimeout = b.longPressTimeout := by
  simp only [Button.doubleClickPhase]; split_ifs <;> rfl

@[simp] theorem doubleClickPhase_pressed (loop wasPressed : Bool) (b : Button) (now : Time) :
    ((b.doubleClickPhase loop wasPressed now).1).pressed = b.pressed := by
  simp only [Button.doubleClickPhase]; split_ifs <;> rfl

@[simp] theorem doubleClickPhase_longPressed (loop wasPressed : Bool) (b : Button) (now : Time) :
    ((b.doubleClickPhase loop wasPressed now).1).longPressed = b.longPressed := by
  simp only [Button.doubleClickPhase]; split_ifs <;> rfl

@[simp] theorem doubleClickPhase_scheduledUpdateTime (loop wasPressed : Bool) (b : Button)
    (now : Time) :
    ((b.doubleClickPhase loop wasPressed now).1).scheduledUpdateTime = b.scheduledUpdateTime := by
  simp only [Button.doubleClickPhase]; split_ifs <;> rfl

@[simp] theorem clickPhase_inputType (loop : Bool) (b : Button) (now : Time) :
    ((b.clickPhase loop now).1).inputType = b.inputType := by
  simp only [Button.clickPhase]; split_ifs <;> simp

@[simp] theorem clickPhase_doubleClickTimeout (loop : Bool) (b : Button) (now : Time) :
    ((b.clickPhase loop now).1).doubleClickTimeout = b.doubleClickTimeout := by
  simp only [Button.clickPhase]; split_ifs <;> simp

@[simp] theorem clickPhase_longPressTimeout (loop : Bool) (b : Button) (now : Time) :
    ((b.clickPhase loop now).1).longPressTimeout = b.longPressTimeout := by
  simp only [Button.clickPhase]; split_ifs <;> simp

@[simp] theorem clickPhase_pressed (loop : Bool) (b : Button) (now : Time) :
    ((b.clickPhase loop now).1).pressed = b.pressed := by
  simp only [Button.clickPhase]; split_ifs <;> simp

@[simp] theorem clickPhase_longPressed (loop : Bool) (b : Button) (now : Time) :
    ((b.clickPhase loop now).1).longPressed = b.longPressed := by
  simp only [Button.clickPhase]; split_ifs <;> simp

/-! Characterisation of the state after the edge block, and of the pressed /
long-pressed fields after a full update. -/

theorem postEdge_pressed (loop : Bool) (b : Button) (pinInput : Bool) (now : Time) :
    ((b.postEdge loop pinInput now).1).pressed = levelToPressed b.inputType pinInput := by
  unfold Button.postEdge; simp

theorem postEdge_inputType (loop : Bool) (b : Button) (pinInput : Bool) (now : Time) :
    ((b.postEdge loop pinInput now).1).inputType = b.inputType := by
  unfold Button.postEdge; simp

theorem postEdge_doubleClickTimeout (loop : Bool) (b : Button) (pinInput : Bool) (now : Time) :
    ((b.postEdge loop pinInput now).1).doubleClickTimeout = b.doubleClickTimeout := by
  unfold Button.postEdge; simp

theorem postEdge_longPressTimeout (loop : Bool) (b : Button) (pinInput : Bool) (now : Time) :
    ((b.postEdge loop pinInput now).1).longPressTimeout = b.longPressTimeout := by
  unfold Button.postEdge; simp

theorem postEdge_longPressed (loop : Bool) (b : Button) (pinInput : Bool) (now : Time) :
    ((b.postEdge loop pinInput now).1).longPressed
      = if levelToPressed b.inputType pinInput then b.longPressed else false := by
  unfold Button.postEdge; split <;> simp_all

theorem update_pressed (loop : Bool) (b : Button) (pinInput : Bool) (now : Time) :
    ((b.update loop pinInput now).1).pressed = levelToPressed b.inputType pinInput := by
  unfold Button.update Button.preClick
  simp [postEdge_pressed]

theorem update_inputType (loop : Bool) (b : Button) (pinInput : Bool) (now : Time) :
    ((b.update loop pinInput now).1).inputType = b.inputType := by
  unfold Button.update Button.preClick
  simp [postEdge_inputType]

theorem longPressPhase_of_not_pressed (loop : Bool) (b : Button) (now : Time)
    (h : b.pressed = false) : b.longPressPhase loop now = (b, []) := by
  simp only [Button.longPressPhase, h]
  simp

theorem update_longPressed_of_not_pressed (loop : Bool) (b : Button) (pinInput : Bool)
    (now : Time) (h : levelToPressed b.inputType pinInput = false) :
    ((b.update loop pinInput now).1).longPressed = false := by
  have hp : ((b.postEdge loop pinInput now).1).pressed = false := by
    rw [postEdge_pressed, h]
  have hlp : ((b.postEdge loop pinInput now).1).longPressed = false := by
    rw [postEdge_longPressed, h]; simp
  unfold Button.update Button.preClick
  simp [longPressPhase_of_not_pressed _ _ _ hp, hlp]

/-- C7: `long_pressed ⇒ pressed` holds in the initial state and after every
call of `Button.update`, for every input level, time and event-loop flag
(so in particular it is preserved from any state): the update clears
`long_pressed` whenever the new `pressed` is false, and only the
long-press block — guarded by `pressed` — ever sets it. -/
theorem claim_C7 :
    (∀ it : InputType, (Button.init it).longPressed = true → (Button.init it).pressed = true)
    ∧ ∀ (b : Button) (loop pinInput : Bool) (now : Time),
        ((b.update loop pinInput now).1).longPressed = true →
        ((b.update loop pinInput now).1).pressed = true := by
  constructor
  · intro it h
    simp [Button.init] at h
  · intro b loop pinInput now h
    rw [update_pressed]
    by_cases hl : levelToPressed b.inputType pinInput = true
    · exact hl
    · rw [update_longPressed_of_not_pressed loop b pinInput now
        (by revert hl; cases levelToPressed b.inputType pinInput <;> simp)] at h
      exact absurd h (by simp)

/-- C7 witness: a pressed, long-pressed button stays long-pressed and pressed
through an update that keeps the pin at the active level. -/
theorem claim_C7_witness :
    (((⟨InputType.pressedWhenOn, 50, 50, true, true, [0], [], 0⟩ : Button).update
        true true 7).1).pressed = true :=
  claim_C7.2 ⟨InputType.pressedWhenOn, 50, 50, true, true, [0], [], 0⟩ true true 7 (by decide)

/-! The "deadline is never stale" invariant: after any part of an update, the
scheduled update time is either cleared or not earlier than the current time. -/

theorem sutInv_scheduleUpdate (b : Button) (t now : Time)
    (hb : b.scheduledUpdateTime = 0 ∨ now ≤ b.scheduledUpdateTime)
    (ht : t = 0 ∨ now ≤ t) :
    (b.scheduleUpdate t).scheduledUpdateTime = 0
      ∨ now ≤ (b.scheduleUpdate t).scheduledUpdateTime := by
  unfold Button.scheduleUpdate
  split_ifs
  · simpa using ht
  · simpa using hb

theorem sutInv_markUpdated (b : Button) (now : Time) :
    (b.markUpdated now).scheduledUpdateTime = 0
      ∨ now ≤ (b.markUpdated now).scheduledUpdateTime := by
  unfold Button.markUpdated Button.scheduleUpdate
  split_ifs <;> simp_all

theorem sutInv_longPressPhase (loop : Bool) (b : Button) (now : Time)
    (hb : b.scheduledUpdateTime = 0 ∨ now ≤ b.scheduledUpdateTime) :
    ((b.longPressPhase loop now).1).scheduledUpdateTime = 0
      ∨ now ≤ ((b.longPressPhase loop now).1).scheduledUpdateTime := by
  simp only [Button.longPressPhase]
  split_ifs with h1 h2 h3
  · simpa using hb
  · have h4 := not_lt.mp h3
    apply sutInv_scheduleUpdate b _ now hb
    right
    linarith
  · simpa using hb
  · simpa using hb

theorem sutInv_clickPhase (loop : Bool) (b : Button) (now : Time)
    (hb : b.scheduledUpdateTime = 0 ∨ now ≤ b.scheduledUpdateTime) :
    ((b.clickPhase loop now).1).scheduledUpdateTime = 0
      ∨ now ≤ ((b.clickPhase loop now).1).scheduledUpdateTime := by
  simp only [Button.clickPhase]
  split_ifs with h1 h2 h3
  · simpa using hb
  · have h4 := not_le.mp h3
    apply sutInv_scheduleUpdate b _ now hb
    right
    linarith
  · simpa using hb
  · simpa using hb

theorem sutInv_postEdge (loop : Bool) (b : Button) (pinInput : Bool) (now : Time) :
    ((b.postEdge loop pinInput now).1).scheduledUpdateTime = 0
      ∨ now ≤ ((b.postEdge loop pinInput now).1).scheduledUpdateTime := by
  simp only [Button.postEdge]
  rw [edgePhase_scheduledUpdateTime]
  exact sutInv_markUpdated _ now

/-- C10: a pending (nonzero) deadline is never postponed by
`_schedule_update` (the stored value is replaced only by `0` or by a value no
later than the pending one); `Button.update` starts by clearing a deadline
strictly earlier than the update's current time; and consequently after every
update the stored deadline is either `0` or a time not earlier than the
update's `now`. -/
theorem claim_C10 :
    (∀ (b : Button) (t : Time), b.scheduledUpdateTime ≠ 0 →
        (b.scheduleUpdate t).scheduledUpdateTime = 0
        ∨ (b.scheduleUpdate t).scheduledUpdateTime ≤ b.scheduledUpdateTime)
    ∧ (∀ (b : Button) (now : Time), b.scheduledUpdateTime < now →
        (b.markUpdated now).scheduledUpdateTime = 0)
    ∧ (∀ (b : Button) (loop pinInput : Bool) (now : Time),
        ((b.update loop pinInput now).1).scheduledUpdateTime = 0
        ∨ now ≤ ((b.update loop pinInput now).1).scheduledUpdateTime) := by
  refine ⟨?_, ?_, ?_⟩
  · intro b t h
    unfold Button.scheduleUpdate
    split_ifs with hc
    · rcases hc with hc | hc | hc
      · left; simpa using hc
      · exact absurd hc h
      · right; simpa using le_of_lt hc
    · right; simp
  · intro b now h
    unfold Button.markUpdated Button.scheduleUpdate
    split_ifs <;> simp_all
  · intro b loop pinInput now
    have h1 := sutInv_postEdge loop b pinInput now
    have h2 := sutInv_longPressPhase loop ((b.postEdge loop pinInput now).1) now h1
    have h3 : (((((b.postEdge loop pinInput now).1).longPressPhase loop now).1).doubleClickPhase
          loop b.pressed now).1.scheduledUpdateTime = 0
        ∨ now ≤ (((((b.postEdge loop pinInput now).1).longPressPhase loop
          now).1).doubleClickPhase loop b.pressed now).1.scheduledUpdateTime := by
      rw [doubleClickPhase_scheduledUpdateTime]
      exact h2
    have h4 := sutInv_clickPhase loop _ now h3
    simpa only [Button.update, Button.preClick] using h4

/-- C10 witness: a pending deadline of 10 is not postponed by a request of 3,
and a deadline of 10 is cleared by an update happening at time 12. -/
theorem claim_C10_witness :
    ((c10Button.scheduleUpdate 3).scheduledUpdateTime = 0
      ∨ (c10Button.scheduleUpdate 3).scheduledUpdateTime ≤ c10Button.scheduledUpdateTime)
    ∧ (c10Button.markUpdated 12).scheduledUpdateTime = 0 :=
  ⟨claim_C10.1 c10Button 3 (by decide), claim_C10.2.1 c10Button 12 (by decide)⟩

/-! Which block can emit which event. -/

theorem eq_press_or_release_of_mem_edgePhase {loop wasPressed : Bool} {b : Button}
    {now : Time} {e : Event} (h : e ∈ (b.edgePhase loop wasPressed now).2) :
    e = Event.press ∨ e = Event.release := by
  simp only [Button.edgePhase, raiseEvent] at h
  split_ifs at h <;> simp_all

theorem eq_press_or_release_of_mem_postEdge {loop : Bool} {b : Button} {pinInput : Bool}
    {now : Time} {e : Event} (h : e ∈ (b.postEdge loop pinInput now).2) :
    e = Event.press ∨ e = Event.release := by
  simp only [Button.postEdge] at h
  exact eq_press_or_release_of_mem_edgePhase h

theorem eq_longPress_of_mem_longPressPhase {loop : Bool} {b : Button} {now : Time}
    {e : Event} (h : e ∈ (b.longPressPhase loop now).2) : e = Event.longPress := by
  simp only [Button.longPressPhase, raiseEvent] at h
  split_ifs at h <;> simp_all

theorem eq_doubleClick_of_mem_doubleClickPhase {loop wasPressed : Bool} {b : Button}
    {now : Time} {e : Event} (h : e ∈ (b.doubleClickPhase loop wasPressed now).2) :
    e = Event.doubleClick := by
  simp only [Button.doubleClickPhase, raiseEvent] at h
  split_ifs at h <;> simp_all

theorem eq_click_of_mem_clickPhase {loop : Bool} {b : Button} {now : Time}
    {e : Event} (h : e ∈ (b.clickPhase loop now).2) : e = Event.click := by
  simp only [Button.clickPhase, raiseEvent] at h
  split_ifs at h <;> simp_all

theorem click_notMem_preClick {loop : Bool} {b : Button} {pinInput : Bool} {now : Time} :
    Event.click ∉ (b.preClick loop pinInput now).2 := by
  intro h
  simp only [Button.preClick, List.mem_append] at h
  rcases h with (h | h) | h
  · rcases eq_press_or_release_of_mem_postEdge h with h' | h' <;> exact absurd h' (by simp)
  · exact absurd (eq_longPress_of_mem_longPressPhase h) (by simp)
  · exact absurd (eq_doubleClick_of_mem_doubleClickPhase h) (by simp)

theorem clickPhase_mem_click {loop : Bool} {b : Button} {now : Time}
    (h : Event.click ∈ (b.clickPhase loop now).2) :
    b.doubleClickTimeout ≤ now - b.pressTimes.getLastD 0 := by
  simp only [Button.clickPhase, raiseEvent] at h
  split_ifs at h <;> simp_all

theorem preClick_doubleClickTimeout (loop : Bool) (b : Button) (pinInput : Bool) (now : Time) :
    ((b.preClick loop pinInput now).1).doubleClickTimeout = b.doubleClickTimeout := by
  simp only [Button.preClick]
  simp [postEdge_doubleClickTimeout]

/-- C1: final `click` block of `Button.update`, applied to the state left by
double-click processing: when both histories are non-empty and the last
transition was a release (`release_times[-1] > press_times[-1]`), a click is
emitted iff `now - press_times[-1] >= double_click_timeout`, in which case
both histories are cleared; otherwise nothing is emitted and a re-entry
deadline of `press_times[-1] + double_click_timeout` is requested.  In
particular every click emitted by a full `Button.update` satisfies
`now >= last_press + double_click_timeout` (the last press being read in the
state the click block inspects). -/
theorem claim_C1 :
    (∀ (b : Button) (now : Time),
      b.pressTimes ≠ [] → b.releaseTimes ≠ [] →
      b.pressTimes.getLastD 0 < b.releaseTimes.getLastD 0 →
      ((Event.click ∈ (b.clickPhase true now).2
          ↔ b.doubleClickTimeout ≤ now - b.pressTimes.getLastD 0)
        ∧ (b.doubleClickTimeout ≤ now - b.pressTimes.getLastD 0 →
            b.clickPhase true now
              = ({ b with pressTimes := [], releaseTimes := [] }, [Event.click]))
        ∧ (now - b.pressTimes.getLastD 0 < b.doubleClickTimeout →
            b.clickPhase true now
              = (b.scheduleUpdate (b.pressTimes.getLastD 0 + b.doubleClickTimeout), []))))
    ∧ (∀ (b : Button) (loop pinInput : Bool) (now : Time),
        Event.click ∈ (b.update loop pinInput now).2 →
        b.doubleClickTimeout ≤ now - ((b.preClick loop pinInput now).1).pressTimes.getLastD 0) := by
  constructor
  · intro b now h1 h2 h3
    by_cases hd : b.doubleClickTimeout ≤ now - b.pressTimes.getLastD 0
    · have he : b.clickPhase true now
          = ({ b with pressTimes := [], releaseTimes := [] }, [Event.click]) := by
        simp only [Button.clickPhase]
        rw [if_pos ⟨h1, h2⟩, if_pos h3, if_pos hd]
        rfl
      refine ⟨?_, fun _ => he, fun hlt => absurd hd (not_le.mpr hlt)⟩
      rw [he]
      exact ⟨fun _ => hd, fun _ => List.mem_singleton.mpr rfl⟩
    · have he : b.clickPhase true now
          = (b.scheduleUpdate (b.pressTimes.getLastD 0 + b.doubleClickTimeout), []) := by
        simp only [Button.clickPhase]
        rw [if_pos ⟨h1, h2⟩, if_pos h3, if_neg hd]
      refine ⟨?_, fun hge => absurd hge hd, fun _ => he⟩
      rw [he]
      exact iff_of_false (List.not_mem_nil _) hd
  · intro b loop pinInput now h
    simp only [Button.update, List.mem_append] at h
    rcases h with h | h
    · exact absurd h click_notMem_preClick
    · have := clickPhase_mem_click h
      rwa [preClick_doubleClickTimeout] at this

/-- C1 witness: both parts at concrete inputs where the hypotheses hold. -/
theorem claim_C1_witness :
    Event.click ∈ ((⟨InputType.pressedWhenOn, 50, 50, false, false, [0], [10], 0⟩ : Button).clickPhase
        true 60).2
    ∧ (50 : Time) ≤ 60 -
        (((⟨InputType.pressedWhenOn, 50, 50, true, false, [0], [], 0⟩ : Button).preClick
          true false 60).1).pressTimes.getLastD 0 :=
  ⟨((claim_C1.1 ⟨InputType.pressedWhenOn, 50, 50, false, false, [0], [10], 0⟩ 60
      (by decide) (by decide) (by decide)).1).mpr (by decide),
   claim_C1.2 ⟨InputType.pressedWhenOn, 50, 50, true, false, [0], [], 0⟩ true false 60 (by decide)⟩

/-! Facts about the state after a falling edge, feeding the double-click and
click blocks. -/

theorem clickPhase_of_pressTimes_nil (loop : Bool) (b : Button) (now : Time)
    (h : b.pressTimes = []) : b.clickPhase loop now = (b, []) := by
  simp [Button.clickPhase, h]

theorem doubleClickPhase_char (loop : Bool) (b : Button) (now : Time)
    (hp : b.pressed = false) :
    b.doubleClickPhase loop true now
      = if 2 ≤ b.pressTimes.length
            ∧ now - b.pressTimes.getD (b.pressTimes.length - 2) 0 < b.doubleClickTimeout
        then ({ b with pressTimes := [], releaseTimes := [] }, raiseEvent loop Event.doubleClick)
        else (b, []) := by
  simp only [Button.doubleClickPhase, hp]
  by_cases hc : 2 ≤ b.pressTimes.length
      ∧ now - b.pressTimes.getD (b.pressTimes.length - 2) 0 < b.doubleClickTimeout
  · rw [if_pos ⟨⟨trivial, trivial⟩, hc.1, hc⟩, if_pos hc]
  · rw [if_neg (fun h => hc h.2.2), if_neg hc]

theorem postEdge_pressTimes_falling (loop : Bool) (b : Button) (pinInput : Bool) (now : Time)
    (hp : b.pressed = true) (hn : levelToPressed b.inputType pinInput = false) :
    ((b.postEdge loop pinInput now).1).pressTimes = b.pressTimes := by
  simp [Button.postEdge, Button.edgePhase, hp, hn]

/-- C4: on a falling edge at time `now`, `Button.update` emits a
`double_click` iff `press_times` has at least two entries and
`now - press_times[-2] < double_click_timeout`; when it does, both histories
are cleared, exactly one `double_click` is raised and no `click` is raised in
the same update. -/
theorem claim_C4 (b : Button) (pinInput : Bool) (now : Time)
    (hp : b.pressed = true) (hn : levelToPressed b.inputType pinInput = false) :
    (Event.doubleClick ∈ (b.update true pinInput now).2
      ↔ 2 ≤ b.pressTimes.length
        ∧ now - b.pressTimes.getD (b.pressTimes.length - 2) 0 < b.doubleClickTimeout)
    ∧ (Event.doubleClick ∈ (b.update true pinInput now).2 →
        ((b.update true pinInput now).2.count Event.doubleClick = 1
          ∧ Event.click ∉ (b.update true pinInput now).2
          ∧ ((b.update true pinInput now).1).pressTimes = []
          ∧ ((b.update true pinInput now).1).releaseTimes = [])) := by
  have hDpressed : ((b.postEdge true pinInput now).1).pressed = false := by
    rw [postEdge_pressed, hn]
  have hDpt := postEdge_pressTimes_falling true b pinInput now hp hn
  have hDdct := postEdge_doubleClickTimeout true b pinInput now
  have hL := longPressPhase_of_not_pressed true ((b.postEdge true pinInput now).1) now hDpressed
  have hu1 : (b.update true pinInput now).2
      = (b.postEdge true pinInput now).2
        ++ ((((b.postEdge true pinInput now).1).doubleClickPhase true b.pressed now).2
        ++ (((((b.postEdge true pinInput now).1).doubleClickPhase true b.pressed
              now).1).clickPhase true now).2) := by
    simp only [Button.update, Button.preClick, hL]
    simp
  have hu2 : (b.update true pinInput now).1
      = (((((b.postEdge true pinInput now).1).doubleClickPhase true b.pressed
            now).1).clickPhase true now).1 := by
    simp only [Button.update, Button.preClick, hL]
  rw [hp] at hu1 hu2
  have hdcZero : (b.postEdge true pinInput now).2.count Event.doubleClick = 0 := by
    rw [List.count_eq_zero]
    intro hmem
    rcases eq_press_or_release_of_mem_postEdge hmem with h' | h' <;> exact absurd h' (by simp)
  have hclickPE : Event.click ∉ (b.postEdge true pinInput now).2 := by
    intro hmem
    rcases eq_press_or_release_of_mem_postEdge hmem with h' | h' <;> exact absurd h' (by simp)
  have hd := doubleClickPhase_char true ((b.postEdge true pinInput now).1) now hDpressed
  by_cases hG : 2 ≤ b.pressTimes.length
      ∧ now - b.pressTimes.getD (b.pressTimes.length - 2) 0 < b.doubleClickTimeout
  · have hG2 : 2 ≤ ((b.postEdge true pinInput now).1).pressTimes.length
        ∧ now - ((b.postEdge true pinInput now).1).pressTimes.getD
            (((b.postEdge true pinInput now).1).pressTimes.length - 2) 0
          < ((b.postEdge true pinInput now).1).doubleClickTimeout := by
      rw [hDpt, hDdct]; exact hG
    rw [if_pos hG2] at hd
    have hk := clickPhase_of_pressTimes_nil true
      ({ (b.postEdge true pinInput now).1 with pressTimes := [], releaseTimes := [] }) now rfl
    constructor
    · rw [hu1, hd]
      simp [hk, raiseEvent]
      refine ⟨hG.1, ?_⟩
      simpa using hG.2
    · intro _
      refine ⟨?_, ?_, ?_, ?_⟩
      · rw [hu1, hd]
        simp [hk, raiseEvent, List.count_append, hdcZero]
      · rw [hu1, hd]
        simp only [hk, raiseEvent, if_pos, List.mem_append]
        push_neg
        refine ⟨hclickPE, ?_⟩
        simp
      · rw [hu2, hd]
        simp [hk]
      · rw [hu2, hd]
        simp [hk]
  · have hG2 : ¬ (2 ≤ ((b.postEdge true pinInput now).1).pressTimes.length
        ∧ now - ((b.postEdge true pinInput now).1).pressTimes.getD
            (((b.postEdge true pinInput now).1).pressTimes.length - 2) 0
          < ((b.postEdge true pinInput now).1).doubleClickTimeout) := by
      rw [hDpt, hDdct]; exact hG
    rw [if_neg hG2] at hd
    have hnodc : Event.doubleClick ∉ (b.update true pinInput now).2 := by
      rw [hu1, hd]
      simp only [List.mem_append]
      push_neg
      refine ⟨?_, ?_, ?_⟩
      · intro hmem
        rcases eq_press_or_release_of_mem_postEdge hmem with h' | h' <;> exact absurd h' (by simp)
      · simp
      · intro hmem
        exact absurd (eq_click_of_mem_clickPhase hmem) (by simp)
    exact ⟨iff_of_false hnodc hG, fun hmem => absurd hmem hnodc⟩

/-- C4 witness: press at 0, release at 5, press at 10, release at 15 with
`double_click_timeout = 50`: the final release is a falling edge whose update
emits the double-click. -/
theorem claim_C4_witness :
    Event.doubleClick ∈ ((⟨InputType.pressedWhenOn, 50, 50, true, false, [0, 10], [5], 0⟩ :
        Button).update true false 15).2 :=
  (claim_C4 ⟨InputType.pressedWhenOn, 50, 50, true, false, [0, 10], [5], 0⟩ false 15
      (by decide) (by decide)).1.mpr (by decide)

/-! Long-press facts: the long-press block fires at most once, only on the
false-to-true transition of `long_pressed`. -/

theorem lpp_of_longPressed (loop : Bool) (b : Button) (now : Time)
    (h : b.longPressed = true) : b.longPressPhase loop now = (b, []) := by
  simp only [Button.longPressPhase]
  by_cases hp : b.pressed = true
  · rw [if_pos hp, if_neg (by simp [h])]
  · rw [if_neg hp]

theorem count_longPress_postEdge (loop : Bool) (b : Button) (pinInput : Bool) (now : Time) :
    ((b.postEdge loop pinInput now).2).count Event.longPress = 0 := by
  rw [List.count_eq_zero]
  intro hmem
  rcases eq_press_or_release_of_mem_postEdge hmem with h' | h' <;> exact absurd h' (by simp)

theorem count_longPress_doubleClickPhase (loop wasPressed : Bool) (b : Button) (now : Time) :
    ((b.doubleClickPhase loop wasPressed now).2).count Event.longPress = 0 := by
  rw [List.count_eq_zero]
  intro hmem
  exact absurd (eq_doubleClick_of_mem_doubleClickPhase hmem) (by simp)

theorem count_longPress_clickPhase (loop : Bool) (b : Button) (now : Time) :
    ((b.clickPhase loop now).2).count Event.longPress = 0 := by
  rw [List.count_eq_zero]
  intro hmem
  exact absurd (eq_click_of_mem_clickPhase hmem) (by simp)

theorem longPressPhase_cases (loop : Bool) (b : Button) (now : Time) :
    ((b.longPressPhase loop now).2.count Event.longPress ≤ 1)
    ∧ (1 ≤ (b.longPressPhase loop now).2.count Event.longPress →
        ((b.longPressPhase loop now).1).longPressed = true)
    ∧ (b.longPressed = true → (b.longPressPhase loop now).2.count Event.longPress = 0) := by
  simp only [Button.longPressPhase, raiseEvent]
  split_ifs <;> simp_all

theorem update_longPressed_eq (loop : Bool) (b : Button) (pinInput : Bool) (now : Time) :
    ((b.update loop pinInput now).1).longPressed
      = ((((b.postEdge loop pinInput now).1).longPressPhase loop now).1).longPressed := by
  simp only [Button.update, Button.preClick]
  simp

theorem update_count_longPress (loop : Bool) (b : Button) (pinInput : Bool) (now : Time) :
    (b.update loop pinInput now).2.count Event.longPress
      = (((b.postEdge loop pinInput now).1).longPressPhase loop now).2.count Event.longPress := by
  simp only [Button.update, Button.preClick]
  simp [List.count_append, count_longPress_postEdge, count_longPress_doubleClickPhase,
    count_longPress_clickPhase]

theorem update_longPress_count (b : Button) (loop pinInput : Bool) (now : Time)
    (h : levelToPressed b.inputType pinInput = true) :
    ((b.update loop pinInput now).2.count Event.longPress ≤ 1)
    ∧ (b.longPressed = true →
        (((b.update loop pinInput now).1).longPressed = true
          ∧ (b.update loop pinInput now).2.count Event.longPress = 0))
    ∧ (1 ≤ (b.update loop pinInput now).2.count Event.longPress →
        ((b.update loop pinInput now).1).longPressed = true) := by
  have hA_lp : ((b.postEdge loop pinInput now).1).longPressed = b.longPressed := by
    rw [postEdge_longPressed, h]
    simp
  refine ⟨?_, ?_, ?_⟩
  · rw [update_count_longPress]
    exact (longPressPhase_cases loop _ now).1
  · intro hlp
    have hAlp : ((b.postEdge loop pinInput now).1).longPressed = true := hA_lp.trans hlp
    have hno := lpp_of_longPressed loop ((b.postEdge loop pinInput now).1) now hAlp
    constructor
    · rw [update_longPressed_eq, hno]
      exact hAlp
    · rw [update_count_longPress, hno]
      simp
  · intro h1
    rw [update_longPressed_eq]
    rw [update_count_longPress] at h1
    exact (longPressPhase_cases loop _ now).2.1 h1

theorem run_longPress_bound (b : Button) (us : List (Bool × Bool × Time))
    (h : ∀ u ∈ us, levelToPressed b.inputType u.2.1 = true) :
    (b.run us).2.count Event.longPress ≤ (if b.longPressed = true then 0 else 1) := by
  induction us generalizing b with
  | nil => simp [Button.run]
  | cons u us ih =>
    have hu := h u (List.mem_cons_self u us)
    have huf := update_longPress_count b u.1 u.2.1 u.2.2 hu
    have htail := ih ((b.update u.1 u.2.1 u.2.2).1) (by
      intro u' hu'
      rw [update_inputType]
      exact h u' (List.mem_cons_of_mem u hu'))
    simp only [Button.run, List.count_append]
    by_cases hb : b.longPressed = true
    · obtain ⟨hpost, hzero⟩ := huf.2.1 hb
      rw [hpost] at htail
      simp [hb, hzero]
      simpa using htail
    · simp only [if_neg hb]
      by_cases hpost : ((b.update u.1 u.2.1 u.2.2).1).longPressed = true
      · have h2 : ((b.update u.1 u.2.1 u.2.2).1.run us).2.count Event.longPress ≤ 0 := by
          rw [hpost] at htail
          simpa using htail
        have h1 := huf.1
        calc (b.update u.1 u.2.1 u.2.2).2.count Event.longPress
              + ((b.update u.1 u.2.1 u.2.2).1.run us).2.count Event.longPress
            ≤ 1 + 0 := Nat.add_le_add h1 h2
          _ = 1 := by simp
      · have hzero : (b.update u.1 u.2.1 u.2.2).2.count Event.longPress = 0 := by
          by_contra hnz
          exact hpost (huf.2.2 (Nat.one_le_iff_ne_zero.mpr hnz))
        have h2 : ((b.update u.1 u.2.1 u.2.2).1.run us).2.count Event.longPress ≤ 1 := by
          simpa [hpost] using htail
        simpa [hzero] using h2

/-- C5: in the long-press block of an update that leaves the button pressed
(with `t_p` the most recent `press_times` entry): if `long_pressed` is false
and `now - t_p > long_press_timeout`, `long_pressed` is set and exactly one
`long_press` is emitted; if `long_pressed` is false and the threshold is not
exceeded, nothing is emitted and a deadline of `t_p + long_press_timeout` is
requested; if `long_pressed` is already true the block is a no-op.  Hence at
most one `long_press` fires per contiguous pressed interval: over any
sequence of updates all of which leave the button pressed, at most one
`long_press` is emitted (none if `long_pressed` already held). -/
theorem claim_C5 :
    (∀ (b : Button) (now : Time), b.pressed = true → b.longPressed = false →
        b.longPressTimeout < now - b.pressTimes.getLastD 0 →
        b.longPressPhase true now = ({ b with longPressed := true }, [Event.longPress]))
    ∧ (∀ (b : Button) (now : Time), b.pressed = true → b.longPressed = false →
        now - b.pressTimes.getLastD 0 ≤ b.longPressTimeout →
        b.longPressPhase true now
          = (b.scheduleUpdate (b.pressTimes.getLastD 0 + b.longPressTimeout), []))
    ∧ (∀ (b : Button) (loop : Bool) (now : Time), b.longPressed = true →
        b.longPressPhase loop now = (b, []))
    ∧ (∀ (b : Button) (us : List (Bool × Bool × Time)),
        (∀ u ∈ us, levelToPressed b.inputType u.2.1 = true) →
        (b.run us).2.count Event.longPress ≤ (if b.longPressed = true then 0 else 1)) := by
  refine ⟨?_, ?_, fun b loop now hb => lpp_of_longPressed loop b now hb,
    fun b us h => run_longPress_bound b us h⟩
  · intro b now hp hlp hgt
    simp only [Button.longPressPhase]
    rw [if_pos hp, if_pos hlp, if_pos hgt]
    rfl
  · intro b now hp hlp hle
    simp only [Button.longPressPhase]
    rw [if_pos hp, if_pos hlp, if_neg (not_lt.mpr hle)]

/-- C5 witness: a pressed, not-yet-long-pressed button whose press is older
than the timeout gets `long_pressed` set and a single `long_press` emitted. -/
theorem claim_C5_witness :
    (⟨InputType.pressedWhenOn, 50, 50, true, false, [0], [], 0⟩ : Button).longPressPhase true 60
      = (⟨InputType.pressedWhenOn, 50, 50, true, true, [0], [], 0⟩, [Event.longPress]) :=
  claim_C5.1 ⟨InputType.pressedWhenOn, 50, 50, true, false, [0], [], 0⟩ 60 rfl rfl (by decide)

/-! Press/release bookkeeping for the alternation invariant. -/

theorem prEvents_append (l1 l2 : List Event) :
    prEvents (l1 ++ l2) = prEvents l1 ++ prEvents l2 := by
  simp [prEvents]

theorem prEvents_longPressPhase (loop : Bool) (b : Button) (now : Time) :
    prEvents ((b.longPressPhase loop now).2) = [] := by
  rw [prEvents, List.filter_eq_nil_iff]
  intro e hmem
  rw [eq_longPress_of_mem_longPressPhase hmem]
  simp

theorem prEvents_doubleClickPhase (loop wasPressed : Bool) (b : Button) (now : Time) :
    prEvents ((b.doubleClickPhase loop wasPressed now).2) = [] := by
  rw [prEvents, List.filter_eq_nil_iff]
  intro e hmem
  rw [eq_doubleClick_of_mem_doubleClickPhase hmem]
  simp

theorem prEvents_clickPhase (loop : Bool) (b : Button) (now : Time) :
    prEvents ((b.clickPhase loop now).2) = [] := by
  rw [prEvents, List.filter_eq_nil_iff]
  intro e hmem
  rw [eq_click_of_mem_clickPhase hmem]
  simp

theorem prEvents_update (b : Button) (loop pinInput : Bool) (now : Time) :
    prEvents (b.update loop pinInput now).2 = prEvents (b.postEdge loop pinInput now).2 := by
  simp only [Button.update, Button.preClick]
  simp [prEvents_append, prEvents_longPressPhase, prEvents_doubleClickPhase, prEvents_clickPhase]

theorem edgePhase_events (loop wasPressed : Bool) (b : Button) (now : Time) :
    (b.edgePhase loop wasPressed now).2
      = if b.pressed = true ∧ wasPressed = false then raiseEvent loop Event.press
        else if b.pressed = false ∧ wasPressed = true then raiseEvent loop Event.release
        else [] := by
  simp only [Button.edgePhase]
  split_ifs <;> rfl

theorem postEdge_events (loop : Bool) (b : Button) (pinInput : Bool) (now : Time) :
    (b.postEdge loop pinInput now).2
      = if levelToPressed b.inputType pinInput = true ∧ b.pressed = false then
          raiseEvent loop Event.press
        else if levelToPressed b.inputType pinInput = false ∧ b.pressed = true then
          raiseEvent loop Event.release
        else [] := by
  simp only [Button.postEdge, edgePhase_events]
  simp

theorem count_press_prEvents (l : List Event) :
    (prEvents l).count Event.press = l.count Event.press := by
  rw [prEvents, List.count_filter]
  simp

theorem count_release_prEvents (l : List Event) :
    (prEvents l).count Event.release = l.count Event.release := by
  rw [prEvents, List.count_filter]
  simp

theorem update_counts (b : Button) (pinInput : Bool) (now : Time) :
    (prEvents (b.update true pinInput now).2
        = if levelToPressed b.inputType pinInput = true ∧ b.pressed = false then [Event.press]
          else if levelToPressed b.inputType pinInput = false ∧ b.pressed = true then
            [Event.release]
          else [])
    ∧ ((b.update true pinInput now).2.count Event.press
        = if levelToPressed b.inputType pinInput = true ∧ b.pressed = false then 1 else 0)
    ∧ ((b.update true pinInput now).2.count Event.release
        = if levelToPressed b.inputType pinInput = false ∧ b.pressed = true then 1 else 0) := by
  have h3 : prEvents (b.update true pinInput now).2
      = if levelToPressed b.inputType pinInput = true ∧ b.pressed = false then [Event.press]
        else if levelToPressed b.inputType pinInput = false ∧ b.pressed = true then
          [Event.release]
        else [] := by
    rw [prEvents_update, postEdge_events]
    split_ifs with hA hB
    all_goals try simp [prEvents, raiseEvent]
    all_goals exact absurd (hA.1.symm.trans hB.1) (by simp)
  refine ⟨h3, ?_, ?_⟩
  · rw [← count_press_prEvents, h3]
    split_ifs with hA hB
    all_goals try simp
    all_goals exact absurd (hA.1.symm.trans hB.1) (by simp)
  · rw [← count_release_prEvents, h3]
    split_ifs with hA hB
    all_goals try simp
    all_goals exact absurd (hA.1.symm.trans hB.1) (by simp)

theorem run_alternation (b : Button) (us : List (Bool × Bool × Time))
    (h : ∀ u ∈ us, u.1 = true) :
    alternates (!b.pressed) (prEvents (b.run us).2) = true
    ∧ (b.run us).2.count Event.press + (if b.pressed = true then 1 else 0)
        = (b.run us).2.count Event.release + (if ((b.run us).1).pressed = true then 1 else 0) := by
  induction us generalizing b with
  | nil => simp [Button.run, prEvents, alternates]
  | cons u us ih =>
    obtain ⟨l, p, t⟩ := u
    have hl : l = true := h (l, p, t) (List.mem_cons_self _ _)
    subst hl
    have htail := ih ((b.update true p t).1) (fun u' hu' => h u' (List.mem_cons_of_mem _ hu'))
    obtain ⟨hc3, hc1, hc2⟩ := update_counts b p t
    have hpostPressed := update_pressed true b p t
    have ht1 := htail.1
    have ht2 := htail.2
    rw [hpostPressed] at ht1 ht2
    simp only [Button.run, List.count_append, prEvents_append]
    rw [hc1, hc2, hc3]
    by_cases hbp : b.pressed = true <;> by_cases hlv : levelToPressed b.inputType p = true
    · rw [hlv] at ht1 ht2
      constructor
      · simp only [hbp, hlv]
        simpa using ht1
      · simp only [hbp, hlv] at ht2 ⊢
        simp at ht2 ⊢
        linarith
    · have hlv2 : levelToPressed b.inputType p = false := by
        revert hlv; cases levelToPressed b.inputType p <;> simp
      rw [hlv2] at ht1 ht2
      constructor
      · simp only [hbp, hlv2]
        simp [alternates]
        simpa using ht1
      · simp only [hbp, hlv2] at ht2 ⊢
        simp at ht2 ⊢
        linarith
    · have hbp2 : b.pressed = false := by
        revert hbp; cases b.pressed <;> simp
      rw [hlv] at ht1 ht2
      constructor
      · simp only [hbp2, hlv]
        simp [alternates]
        simpa using ht1
      · simp only [hbp2, hlv] at ht2 ⊢
        simp at ht2 ⊢
        linarith
    · have hbp2 : b.pressed = false := by
        revert hbp; cases b.pressed <;> simp
      have hlv2 : levelToPressed b.inputType p = false := by
        revert hlv; cases levelToPressed b.inputType p <;> simp
      rw [hlv2] at ht1 ht2
      constructor
      · simp only [hbp2, hlv2]
        simpa using ht1
      · simp only [hbp2, hlv2] at ht2 ⊢
        simp at ht2 ⊢
        linarith

/-- C6 counterexample: starting from the initial state, a first update
without the event loop (exactly what `make_button`'s creation-time update
does on a running controller) records the press silently; the next update,
with the loop, then emits a `release` with no preceding `press`, so the
emitted events neither alternate starting with press nor satisfy
`#release ≤ #press`. -/
theorem claim_C6_counterexample :
    ((Button.init InputType.pressedWhenOn).run [(false, true, 1), (true, false, 2)]).2
      = [Event.release]
    ∧ ¬ (((Button.init InputType.pressedWhenOn).run
            [(false, true, 1), (true, false, 2)]).2.count Event.release
          ≤ ((Button.init InputType.pressedWhenOn).run
            [(false, true, 1), (true, false, 2)]).2.count Event.press) := by
  decide

/-- C6 (amended): for every button starting from its initial state and every
sequence of `Button.update` calls in which each call is given the event loop
(no suppressed updates), the emitted press and release events strictly
alternate beginning with press, and after every prefix (the statement is
quantified over all sequences, hence over all prefixes) the number of
releases emitted is at most the number of presses emitted. -/
theorem claim_C6 (it : InputType) (us : List (Bool × Bool × Time))
    (h : ∀ u ∈ us, u.1 = true) :
    alternates true (prEvents ((Button.init it).run us).2) = true
    ∧ ((Button.init it).run us).2.count Event.release
        ≤ ((Button.init it).run us).2.count Event.press := by
  have hinv := run_alternation (Button.init it) us h
  constructor
  · have := hinv.1
    simpa [Button.init] using this
  · have h2 := hinv.2
    have hip : (Button.init it).pressed = false := rfl
    simp only [hip] at h2
    by_cases hf : (((Button.init it).run us).1).pressed = true
    · simp only [hf] at h2
      simp at h2
      linarith
    · have hf2 : (((Button.init it).run us).1).pressed = false := by
        revert hf; cases (((Button.init it).run us).1).pressed <;> simp
      simp only [hf2] at h2
      simp at h2
      linarith

/-- C6 witness: a press then release trace with the event loop present. -/
theorem claim_C6_witness :
    alternates true (prEvents ((Button.init InputType.pressedWhenOn).run
        [(true, true, 0), (true, false, 10)]).2) = true
    ∧ ((Button.init InputType.pressedWhenOn).run
          [(true, true, 0), (true, false, 10)]).2.count Event.release
        ≤ ((Button.init InputType.pressedWhenOn).run
          [(true, true, 0), (true, false, 10)]).2.count Event.press :=
  claim_C6 InputType.pressedWhenOn [(true, true, 0), (true, false, 10)] (by decide)

end RpiControls
